import Mathlib

/-!
Code-Mate: the match session of `ProblemPage` (src/ProfilePage.js)

A shallow embedding of the React component `ProblemPage`: its `useState`
cells form the record `Session`, every callback of the component (timer
interval, timer effect, socket listeners, editor `onChange`, submit button
`onClick`, settlement of the awaited `axios.post`) is one case of `step`,
and what a callback does to the outside world (socket emits, alerts, console
output, HTTP posts) is returned as a list of `Effect`s.
-/

namespace CodeMate

/-- The two values of the `matchState` cell (line 36). -/
inductive MatchState where
  | in_progress
  | finished
  deriving DecidableEq, Repr

/-- One element of the array answered by `POST /api/submissions`, as read by
the result list of the view (lines 287-326): `status.description`, `stdout`,
`stderr`. -/
structure Verdict where
  description : String
  stdout : Option String
  stderr : Option String
  deriving DecidableEq, Repr

/-- The `useState` cells of `ProblemPage` (lines 36-48), `problem` apart.
`timer` is a JavaScript number that only ever holds integers, hence `Int`.
`pending` is not a cell of the component: it counts the `axios.post` promises
of `handleSubmit` (line 133) that have not settled yet. -/
structure Session where
  matchState : MatchState
  winner : Option String
  timer : Int
  myCode : String
  opponentCode : String
  submissionResult : Option (List Verdict)
  isSubmitting : Bool
  commentary : List String
  pending : Nat
  deriving DecidableEq, Repr

/-- What the component reads from its surroundings: whether `SocketContext`
holds a socket (lines 32, 79, 109) and the route parameter `id` (line 31). -/
structure Env where
  socket : Bool
  problemId : String
  deriving DecidableEq, Repr

/-- The body posted to `/api/submissions` (lines 127-132). -/
structure SubmissionBody where
  code : String
  language : String
  problemId : String
  roomId : String
  deriving DecidableEq, Repr

/-- What a callback does besides setting state. -/
inductive Effect where
  /-- Line 110: `socket.emit("codeChange", { roomId, newCode })`. -/
  | emitCodeChange (roomId newCode : String)
  /-- Lines 117 and 137: `alert(msg)`. -/
  | alert (msg : String)
  /-- Line 136: `console.error("Submission failed", error)`. -/
  | consoleError (msg : String)
  /-- Line 133: `axios.post("/api/submissions", body, config)` with the token
  as `x-auth-token`. -/
  | post (body : SubmissionBody) (token : String)
  deriving DecidableEq, Repr

/-- The template of lines 18-28. -/
def javaTemplate : String :=
  "import java.util.*;\nimport java.io.*;\n\npublic class Main \x7b\n" ++
  "    public static void main(String[] args) throws IOException \x7b\n" ++
  "        BufferedReader br = new BufferedReader(new InputStreamReader(System.in));\n" ++
  "        String inputLine = br.readLine();\n" ++
  "        System.out.println(\"You entered: \" + inputLine);\n" ++
  "    \x7d\n\x7d\n"

/-- The initial values of the cells (lines 36-48); no post is outstanding. -/
def initialSession : Session :=
  { matchState := MatchState.in_progress
    winner := none
    timer := 300
    myCode := javaTemplate
    opponentCode := "// Waiting for opponent..."
    submissionResult := none
    isSubmitting := false
    commentary := []
    pending := 0 }

/-- The interval callback of lines 53-55, `setTimer(prev => prev - 1)`. The
interval exists only while the effect of lines 51-62 took its first branch,
that is while `matchState === "in_progress" && timer > 0`; the effect's
dependency list `[timer, matchState]` clears it as soon as either changes. -/
def tick (s : Session) : Session :=
  if s.matchState = MatchState.in_progress ∧ 0 < s.timer then
    { s with timer := s.timer - 1 }
  else s

/-- The second branch of the effect of lines 51-62: with
`timer === 0 && matchState === "in_progress"` the match is finished and the
winner is the label "Time Up!". -/
def localTimeout (s : Session) : Session :=
  if s.matchState = MatchState.in_progress ∧ 0 < s.timer then s
  else if s.timer = 0 ∧ s.matchState = MatchState.in_progress then
    { s with matchState := MatchState.finished, winner := some "Time Up!" }
  else s

/-- The `matchEnd` listener of lines 94-97: both setters run whatever the
current state is; `reason` is destructured and not used. -/
def onMatchEnd (winner _reason : String) (s : Session) : Session :=
  { s with matchState := MatchState.finished, winner := some winner }

/-- The `opponentCodeChange` listener of line 82. -/
def onOpponentCodeChange (newCode : String) (s : Session) : Session :=
  { s with opponentCode := newCode }

/-- The entry of a `newCommentary` event (line 84). -/
def renderCommentary (text : String) : String :=
  "🤖 " ++ text

/-- The entry of a `testCaseResult` event (line 88); the test case number is
a natural number, printed in decimal. -/
def renderTestCaseResult (username status : String) (testCaseNumber : Nat) : String :=
  "⚡ " ++ username ++ " " ++ status ++ " Test Case #" ++ toString testCaseNumber ++ "!"

/-- The updater shared by both commentary listeners (lines 84 and 87-90):
`prev => [entry, ...prev.slice(0, 4)]`. -/
def pushCommentary (entry : String) (prev : List String) : List String :=
  entry :: prev.take 4

/-- The `newCommentary` listener of lines 83-85. -/
def onNewCommentary (text : String) (s : Session) : Session :=
  { s with commentary := pushCommentary (renderCommentary text) s.commentary }

/-- The `testCaseResult` listener of lines 86-91. -/
def onTestCaseResult (username status : String) (testCaseNumber : Nat) (s : Session) :
    Session :=
  { s with commentary :=
      pushCommentary (renderTestCaseResult username status testCaseNumber) s.commentary }

/-- The function `handleCodeChange` of lines 107-112: the own buffer is set
and, when there is a socket, the full new content is emitted. -/
def handleCodeChange (env : Env) (newCode : String) (s : Session) : Session × List Effect :=
  ({ s with myCode := newCode },
   if env.socket then [Effect.emitCodeChange env.problemId newCode] else [])

/-- JavaScript's `!token` for the value of `localStorage.getItem("token")`:
`null` and the empty string are falsy. -/
def tokenMissing : Option String → Bool
  | none => true
  | some t => t == ""

/-- The notice of line 117. -/
def loginNotice : String := "You must be logged in to submit a solution."

/-- The notice of line 137. -/
def failureNotice : String := "An error occurred during submission."

/-- The function `handleSubmit` of lines 114-141 up to its `await`: without a
token it alerts and returns; otherwise it sets `isSubmitting`, clears the
stored result and posts the submission. -/
def handleSubmit (env : Env) (token : Option String) (s : Session) : Session × List Effect :=
  if tokenMissing token then (s, [Effect.alert loginNotice])
  else
    ({ s with isSubmitting := true, submissionResult := none, pending := s.pending + 1 },
     [Effect.post
        { code := s.myCode, language := "java", problemId := env.problemId,
          roomId := env.problemId }
        (token.getD "")])

/-- The rest of `handleSubmit` (lines 133-140), run when an outstanding post
settles: a response stores its data (line 134), a rejection logs and alerts
(lines 136-137), and `finally` resets `isSubmitting` (line 139). Nothing
settles when no post is outstanding. -/
def onPostSettled (r : Except String (List Verdict)) (s : Session) : Session × List Effect :=
  if s.pending = 0 then (s, [])
  else
    match r with
    | Except.ok data =>
      ({ s with submissionResult := some data, isSubmitting := false, pending := s.pending - 1 },
       [])
    | Except.error _ =>
      ({ s with isSubmitting := false, pending := s.pending - 1 },
       [Effect.consoleError "Submission failed", Effect.alert failureNotice])

/-- The `readOnly` property of the own editor (line 256). -/
def editorReadOnly (s : Session) : Bool :=
  decide (s.matchState = MatchState.finished)

/-- The `disabled` property of the submit button (line 268). -/
def submitDisabled (s : Session) : Bool :=
  s.isSubmitting || decide (s.matchState = MatchState.finished)

/-- Everything that can happen to a mounted `ProblemPage`. -/
inductive Event where
  /-- The one-second interval fires. -/
  | tick
  /-- The timer effect runs its second branch. -/
  | localTimeout
  /-- Inbound `matchEnd` with payload `{ winner, reason }`. -/
  | matchEnd (winner reason : String)
  /-- Inbound `opponentCodeChange`. -/
  | opponentCodeChange (newCode : String)
  /-- Inbound `newCommentary` with payload `{ text }`. -/
  | newCommentary (text : String)
  /-- Inbound `testCaseResult` with payload `{ username, status, testCaseNumber }`. -/
  | testCaseResult (username status : String) (testCaseNumber : Nat)
  /-- The user changes the content of the own editor to `newCode`. -/
  | localEdit (newCode : String)
  /-- The user presses the submit button while `localStorage` holds `token`. -/
  | clickSubmit (token : Option String)
  /-- An outstanding post settles with a response or a rejection. -/
  | postSettled (r : Except String (List Verdict))

/-- One event applied to the session. A read-only editor reports no change of
its content (line 256) and a disabled button reports no click (line 268), so
`handleCodeChange` and `handleSubmit` run only when the view lets them. -/
def step (env : Env) (e : Event) (s : Session) : Session × List Effect :=
  match e with
  | Event.tick => (tick s, [])
  | Event.localTimeout => (localTimeout s, [])
  | Event.matchEnd w r => (onMatchEnd w r s, [])
  | Event.opponentCodeChange c => (onOpponentCodeChange c s, [])
  | Event.newCommentary t => (onNewCommentary t s, [])
  | Event.testCaseResult u st n => (onTestCaseResult u st n s, [])
  | Event.localEdit c => if editorReadOnly s then (s, []) else handleCodeChange env c s
  | Event.clickSubmit tok => if submitDisabled s then (s, []) else handleSubmit env tok s
  | Event.postSettled r => onPostSettled r s

/-- A sequence of events applied in order; the effects are collected in the
order in which they happen. -/
def run (env : Env) : List Event → Session → Session × List Effect
  | [], s => (s, [])
  | e :: es, s =>
    let r := step env e s
    let q := run env es r.1
    (q.1, r.2 ++ q.2)

/-- The commentary entry an event inserts, if it is a commentary event. -/
def renderedEntry : Event → Option String
  | Event.newCommentary t => some (renderCommentary t)
  | Event.testCaseResult u st n => some (renderTestCaseResult u st n)
  | _ => none

/-- The entries inserted by a sequence of events, in arrival order. -/
def renderedEntries (es : List Event) : List String :=
  es.filterMap renderedEntry

/-- Whether an event is a `Tick`. -/
def Event.isTick : Event → Bool
  | Event.tick => true
  | _ => false

/-- Whether an event is an inbound `matchEnd`. -/
def Event.isMatchEnd : Event → Bool
  | Event.matchEnd _ _ => true
  | _ => false

/-- Whether an event is the settlement of a post. -/
def Event.isPostSettled : Event → Bool
  | Event.postSettled _ => true
  | _ => false

/-- Whether an event is an inbound `opponentCodeChange`. -/
def Event.isOpponentCodeChange : Event → Bool
  | Event.opponentCodeChange _ => true
  | _ => false

/-- Whether an event is a local edit. -/
def Event.isLocalEdit : Event → Bool
  | Event.localEdit _ => true
  | _ => false

/-- Whether an event is a press of the submit button. -/
def Event.isClickSubmit : Event → Bool
  | Event.clickSubmit _ => true
  | _ => false

/-- Whether an effect is a post to the grading service. -/
def Effect.isPost : Effect → Bool
  | Effect.post _ _ => true
  | _ => false

/-- Whether an effect is an emitted `codeChange`. -/
def Effect.isEmitCodeChange : Effect → Bool
  | Effect.emitCodeChange _ _ => true
  | _ => false

/-- The session after `n` ticks. -/
def ticks : Nat → Session → Session
  | 0, s => s
  | n + 1, s => ticks n (tick s)

/-- The outcome of a local timeout: finished, winner "Time Up!", timer 0. -/
def TimedOut (s : Session) : Prop :=
  s.matchState = MatchState.finished ∧ s.winner = some "Time Up!" ∧ s.timer = 0

/-! ## Frame lemmas -/

theorem tick_of_finished (s : Session) (h : s.matchState = MatchState.finished) :
    tick s = s := by
  simp [tick, h]

theorem localTimeout_of_finished (s : Session) (h : s.matchState = MatchState.finished) :
    localTimeout s = s := by
  simp [localTimeout, h]

theorem run_nil (env : Env) (s : Session) : run env [] s = (s, []) := rfl

theorem run_cons (env : Env) (e : Event) (es : List Event) (s : Session) :
    run env (e :: es) s =
      ((run env es (step env e s).1).1, (step env e s).2 ++ (run env es (step env e s).1).2) :=
  rfl

theorem run_append (env : Env) (es fs : List Event) (s : Session) :
    run env (es ++ fs) s =
      ((run env fs (run env es s).1).1, (run env es s).2 ++ (run env fs (run env es s).1).2) := by
  induction es generalizing s with
  | nil => simp [run_nil]
  | cons e es ih => simp [run_cons, ih, List.append_assoc]

/-- The match state, winner and timer are touched by no event other than a
tick, a local timeout and a match end. -/
theorem step_match_frame (env : Env) (e : Event) (s : Session)
    (h1 : e.isTick = false) (h2 : e.isMatchEnd = false) (h3 : e ≠ Event.localTimeout) :
    (step env e s).1.matchState = s.matchState ∧ (step env e s).1.winner = s.winner ∧
      (step env e s).1.timer = s.timer := by
  cases e with
  | tick => simp [Event.isTick] at h1
  | localTimeout => exact absurd rfl h3
  | matchEnd w r => simp [Event.isMatchEnd] at h2
  | opponentCodeChange c => simp [step, onOpponentCodeChange]
  | newCommentary t => simp [step, onNewCommentary]
  | testCaseResult u st n => simp [step, onTestCaseResult]
  | localEdit c =>
    simp only [step, handleCodeChange]
    split <;> simp
  | clickSubmit tok =>
    simp only [step, handleSubmit]
    split
    · simp
    · split <;> simp
  | postSettled r =>
    simp only [step, onPostSettled]
    split
    · simp
    · cases r <;> simp

/-- Once finished, the match state and the timer survive every event. -/
theorem step_of_finished (env : Env) (e : Event) (s : Session)
    (h : s.matchState = MatchState.finished) :
    (step env e s).1.matchState = MatchState.finished ∧ (step env e s).1.timer = s.timer := by
  cases e with
  | tick => simp [step, tick_of_finished s h, h]
  | localTimeout => simp [step, localTimeout_of_finished s h, h]
  | matchEnd w r => simp [step, onMatchEnd]
  | opponentCodeChange c =>
    have := step_match_frame env (Event.opponentCodeChange c) s rfl rfl (by simp)
    simp [this, h]
  | newCommentary t =>
    have := step_match_frame env (Event.newCommentary t) s rfl rfl (by simp)
    simp [this, h]
  | testCaseResult u st n =>
    have := step_match_frame env (Event.testCaseResult u st n) s rfl rfl (by simp)
    simp [this, h]
  | localEdit c =>
    have := step_match_frame env (Event.localEdit c) s rfl rfl (by simp)
    simp [this, h]
  | clickSubmit tok =>
    have := step_match_frame env (Event.clickSubmit tok) s rfl rfl (by simp)
    simp [this, h]
  | postSettled r =>
    have := step_match_frame env (Event.postSettled r) s rfl rfl (by simp)
    simp [this, h]

theorem run_of_finished (env : Env) (es : List Event) (s : Session)
    (h : s.matchState = MatchState.finished) :
    (run env es s).1.matchState = MatchState.finished ∧ (run env es s).1.timer = s.timer := by
  induction es generalizing s with
  | nil => simp [run_nil, h]
  | cons e es ih =>
    have hs := step_of_finished env e s h
    have := ih (step env e s).1 hs.1
    simp [run_cons, this, hs.2]

/-- Without a match end, a session that timed out stays as it is in match
state, winner and timer. -/
theorem step_of_timedOut (env : Env) (e : Event) (s : Session) (h : TimedOut s)
    (he : e.isMatchEnd = false) : TimedOut (step env e s).1 := by
  obtain ⟨h1, h2, h3⟩ := h
  cases e with
  | tick => simpa [step, tick_of_finished s h1] using ⟨h1, h2, h3⟩
  | localTimeout => simpa [step, localTimeout_of_finished s h1] using ⟨h1, h2, h3⟩
  | matchEnd w r => simp [Event.isMatchEnd] at he
  | opponentCodeChange c =>
    have := step_match_frame env (Event.opponentCodeChange c) s rfl rfl (by simp)
    simp [TimedOut, this, h1, h2, h3]
  | newCommentary t =>
    have := step_match_frame env (Event.newCommentary t) s rfl rfl (by simp)
    simp [TimedOut, this, h1, h2, h3]
  | testCaseResult u st n =>
    have := step_match_frame env (Event.testCaseResult u st n) s rfl rfl (by simp)
    simp [TimedOut, this, h1, h2, h3]
  | localEdit c =>
    have := step_match_frame env (Event.localEdit c) s rfl rfl (by simp)
    simp [TimedOut, this, h1, h2, h3]
  | clickSubmit tok =>
    have := step_match_frame env (Event.clickSubmit tok) s rfl rfl (by simp)
    simp [TimedOut, this, h1, h2, h3]
  | postSettled r =>
    have := step_match_frame env (Event.postSettled r) s rfl rfl (by simp)
    simp [TimedOut, this, h1, h2, h3]

theorem run_of_timedOut (env : Env) (es : List Event) (s : Session) (h : TimedOut s)
    (hes : ∀ e ∈ es, e.isMatchEnd = false) : TimedOut (run env es s).1 := by
  induction es generalizing s with
  | nil => simpa [run_nil] using h
  | cons e es ih =>
    have hs := step_of_timedOut env e s h (hes e (by simp))
    simpa [run_cons] using ih (step env e s).1 hs (fun x hx => hes x (by simp [hx]))

theorem ticks_of_in_progress (n : Nat) (s : Session)
    (hs : s.matchState = MatchState.in_progress) (ht : s.timer = (n : Int)) :
    ticks n s = { s with timer := 0 } := by
  induction n generalizing s with
  | zero =>
    cases s
    simp_all [ticks]
  | succ n ih =>
    have hpos : 0 < s.timer := by rw [ht]; exact_mod_cast Nat.succ_pos n
    have ht2 : tick s = { s with timer := s.timer - 1 } := by simp [tick, hs, hpos]
    have := ih (tick s) (by simp [ht2, hs]) (by simp [ht2, ht])
    show ticks n (tick s) = _
    rw [this, ht2]

theorem localTimeout_at_zero (s : Session)
    (hs : s.matchState = MatchState.in_progress) (ht : s.timer = 0) :
    TimedOut (localTimeout s) := by
  simp [localTimeout, TimedOut, hs, ht]

/-- Ticks, local timeouts and unrelated events in any order: when the ticks
are as many as the seconds left and no match end arrives, the local
timeout at zero ends the match. -/
theorem run_then_timeout (env : Env) (es : List Event) (s : Session)
    (hs : s.matchState = MatchState.in_progress)
    (ht : s.timer = ((es.countP Event.isTick : Nat) : Int))
    (hes : ∀ e ∈ es, e.isMatchEnd = false) :
    TimedOut (localTimeout (run env es s).1) := by
  induction es generalizing s with
  | nil => exact localTimeout_at_zero s hs (by simpa using ht)
  | cons e es ih =>
    have hes2 : ∀ x ∈ es, x.isMatchEnd = false := fun x hx => hes x (by simp [hx])
    have he : e.isMatchEnd = false := hes e (by simp)
    rw [run_cons]
    by_cases hT : e.isTick = true
    · have hc : (e :: es).countP Event.isTick = es.countP Event.isTick + 1 := by
        simp [List.countP_cons, hT]
      rw [hc] at ht
      have hpos : 0 < s.timer := by rw [ht]; exact_mod_cast Nat.succ_pos _
      cases e with
      | tick =>
        have ht2 : tick s = { s with timer := s.timer - 1 } := by simp [tick, hs, hpos]
        exact ih (step env Event.tick s).1 (by simp [step, ht2, hs])
          (by simp [step, ht2, ht]) hes2
      | _ => simp [Event.isTick] at hT
    · have hT2 : e.isTick = false := by simpa using hT
      have hc : (e :: es).countP Event.isTick = es.countP Event.isTick := by
        simp [List.countP_cons, hT2]
      rw [hc] at ht
      by_cases hL : e = Event.localTimeout
      · subst hL
        by_cases h0 : s.timer = 0
        · have hto := localTimeout_at_zero s hs h0
          have := run_of_timedOut env es (localTimeout s) hto hes2
          simpa [step, localTimeout_of_finished _ this.1] using this
        · have hpos : 0 < s.timer := by
            have : (0 : Int) ≤ s.timer := by rw [ht]; exact_mod_cast Nat.zero_le _
            omega
          have hid : localTimeout s = s := by simp [localTimeout, hs, hpos]
          simpa [step, hid] using ih s hs ht hes2
      · have hf := step_match_frame env e s hT2 he hL
        exact ih (step env e s).1 (by rw [hf.1, hs]) (by rw [hf.2.2, ht]) hes2

/-- The timer never rises, whatever the event and the state. -/
theorem step_timer_eq (env : Env) (e : Event) (s : Session) :
    (step env e s).1.timer =
      if e.isTick = true ∧ s.matchState = MatchState.in_progress ∧ 0 < s.timer
      then s.timer - 1 else s.timer := by
  by_cases hT : e.isTick = true
  · cases e with
    | tick =>
      by_cases hg : s.matchState = MatchState.in_progress ∧ 0 < s.timer
      · simp [step, tick, hg, Event.isTick]
      · simp only [step, tick, if_neg hg, Event.isTick, true_and]
    | _ => simp [Event.isTick] at hT
  · have hT2 : e.isTick = false := by simpa using hT
    rw [if_neg (fun h => hT h.1)]
    by_cases hM : e.isMatchEnd = true
    · cases e with
      | matchEnd w r => simp [step, onMatchEnd]
      | _ => simp [Event.isMatchEnd] at hM
    · by_cases hL : e = Event.localTimeout
      · subst hL
        simp only [step, localTimeout]
        split
        · rfl
        · split <;> rfl
      · exact (step_match_frame env e s hT2 (by simpa using hM) hL).2.2

theorem run_timer_nonneg (env : Env) (es : List Event) (s : Session) (h : 0 ≤ s.timer) :
    0 ≤ (run env es s).1.timer := by
  induction es generalizing s with
  | nil => simpa [run_nil] using h
  | cons e es ih =>
    rw [run_cons]
    apply ih
    rw [step_timer_eq]
    split <;> omega


/-! ## Submission lemmas -/

/-- Along the events of the view, a post is outstanding exactly while
`isSubmitting` is set, and then it is the only one. -/
theorem step_pending (env : Env) (e : Event) (s : Session)
    (h : s.pending = if s.isSubmitting = true then 1 else 0) :
    (step env e s).1.pending = if (step env e s).1.isSubmitting = true then 1 else 0 := by
  cases e with
  | tick =>
    simp only [step, tick]
    split <;> simpa using h
  | localTimeout =>
    simp only [step, localTimeout]
    split
    · simpa using h
    · split <;> simpa using h
  | matchEnd w r => simpa [step, onMatchEnd] using h
  | opponentCodeChange c => simpa [step, onOpponentCodeChange] using h
  | newCommentary t => simpa [step, onNewCommentary] using h
  | testCaseResult u st n => simpa [step, onTestCaseResult] using h
  | localEdit c =>
    simp only [step, handleCodeChange]
    split <;> simpa using h
  | clickSubmit tok =>
    simp only [step, handleSubmit]
    split
    · simpa using h
    · rename_i hd
      have hf : s.isSubmitting = false := by
        cases hb : s.isSubmitting with
        | false => rfl
        | true => simp [submitDisabled, hb] at hd
      split
      · simpa using h
      · simp [hf] at h
        simp [h]
  | postSettled r =>
    simp only [step, onPostSettled]
    split
    · simpa using h
    · rename_i hp
      have h1 : s.pending = 1 := by
        cases hb : s.isSubmitting with
        | false => simp [hb] at h; omega
        | true => simpa [hb] using h
      cases r <;> simp [h1]

theorem run_pending (env : Env) (es : List Event) (s : Session)
    (h : s.pending = if s.isSubmitting = true then 1 else 0) :
    (run env es s).1.pending = if (run env es s).1.isSubmitting = true then 1 else 0 := by
  induction es generalizing s with
  | nil => simpa [run_nil] using h
  | cons e es ih =>
    rw [run_cons]
    exact ih _ (step_pending env e s h)

/-- While a post is outstanding and none settles, `isSubmitting` stays set
and the stored result stays cleared. -/
theorem step_in_flight (env : Env) (e : Event) (s : Session)
    (h : s.isSubmitting = true ∧ s.submissionResult = none ∧ 0 < s.pending)
    (he : e.isPostSettled = false) :
    (step env e s).1.isSubmitting = true ∧ (step env e s).1.submissionResult = none ∧
      0 < (step env e s).1.pending := by
  obtain ⟨h1, h2, h3⟩ := h
  cases e with
  | tick =>
    simp only [step, tick]
    split <;> exact ⟨h1, h2, h3⟩
  | localTimeout =>
    simp only [step, localTimeout]
    split
    · exact ⟨h1, h2, h3⟩
    · split <;> exact ⟨h1, h2, h3⟩
  | matchEnd w r => exact ⟨h1, h2, h3⟩
  | opponentCodeChange c => exact ⟨h1, h2, h3⟩
  | newCommentary t => exact ⟨h1, h2, h3⟩
  | testCaseResult u st n => exact ⟨h1, h2, h3⟩
  | localEdit c =>
    simp only [step, handleCodeChange]
    split <;> exact ⟨h1, h2, h3⟩
  | clickSubmit tok =>
    have hd : submitDisabled s = true := by simp [submitDisabled, h1]
    simp only [step, hd, if_true]
    exact ⟨h1, h2, h3⟩
  | postSettled r => simp [Event.isPostSettled] at he

theorem run_in_flight (env : Env) (es : List Event) (s : Session)
    (h : s.isSubmitting = true ∧ s.submissionResult = none ∧ 0 < s.pending)
    (hes : ∀ e ∈ es, e.isPostSettled = false) :
    (run env es s).1.isSubmitting = true ∧ (run env es s).1.submissionResult = none ∧
      0 < (run env es s).1.pending := by
  induction es generalizing s with
  | nil => simpa [run_nil] using h
  | cons e es ih =>
    rw [run_cons]
    exact ih _ (step_in_flight env e s h (hes e (by simp))) (fun x hx => hes x (by simp [hx]))

/-- Only a press of the submit button posts to the grading service. -/
theorem step_no_post (env : Env) (e : Event) (s : Session) (he : e.isClickSubmit = false) :
    ∀ x ∈ (step env e s).2, x.isPost = false := by
  cases e with
  | clickSubmit tok => simp [Event.isClickSubmit] at he
  | localEdit c =>
    simp only [step, handleCodeChange]
    split
    · simp
    · split <;> simp [Effect.isPost]
  | postSettled r =>
    simp only [step, onPostSettled]
    split
    · simp
    · cases r <;> simp [Effect.isPost]
  | _ => simp [step]

theorem run_no_post (env : Env) (es : List Event) (s : Session)
    (hes : ∀ e ∈ es, e.isClickSubmit = false) :
    ∀ x ∈ (run env es s).2, x.isPost = false := by
  induction es generalizing s with
  | nil => simp [run_nil]
  | cons e es ih =>
    rw [run_cons]
    intro x hx
    rcases List.mem_append.mp hx with h | h
    · exact step_no_post env e s (hes e (by simp)) x h
    · exact ih _ (fun y hy => hes y (by simp [hy])) x h

/-! ## Commentary lemmas -/

theorem step_commentary (env : Env) (e : Event) (s : Session) :
    (step env e s).1.commentary =
      match renderedEntry e with
      | some x => pushCommentary x s.commentary
      | none => s.commentary := by
  cases e with
  | tick =>
    simp only [step, tick, renderedEntry]
    split <;> rfl
  | localTimeout =>
    simp only [step, localTimeout, renderedEntry]
    split
    · rfl
    · split <;> rfl
  | matchEnd w r => rfl
  | opponentCodeChange c => rfl
  | newCommentary t => rfl
  | testCaseResult u st n => rfl
  | localEdit c =>
    simp only [step, handleCodeChange, renderedEntry]
    split <;> rfl
  | clickSubmit tok =>
    simp only [step, handleSubmit, renderedEntry]
    split
    · rfl
    · split <;> rfl
  | postSettled r =>
    simp only [step, onPostSettled, renderedEntry]
    split
    · rfl
    · cases r <;> rfl

theorem run_commentary (env : Env) (es : List Event) (s : Session) (h : s.commentary = []) :
    (run env es s).1.commentary = ((renderedEntries es).reverse).take 5 := by
  induction es using List.reverseRecOn with
  | nil => simp [run_nil, renderedEntries, h]
  | append_singleton es e ih =>
    rw [run_append]
    show (step env e (run env es s).1).1.commentary = _
    rw [step_commentary, ih]
    cases hr : renderedEntry e with
    | none => simp [renderedEntries, List.filterMap_append, hr]
    | some x =>
      simp [renderedEntries, List.filterMap_append, hr, pushCommentary, List.take_take]

/-! ## The claims -/

/-- C1, as the code has it: in a finished session a Tick and a local timeout
change nothing at all, so status, winner and timer stay; an inbound matchEnd
keeps the status finished and the timer, and sets the winner to its payload
(the listener has no guard), leaving every other cell alone. -/
theorem finished_is_sticky_but_matchEnd_sets_winner (env : Env) (s : Session)
    (w r : String) (h : s.matchState = MatchState.finished) :
    (step env Event.tick s).1 = s ∧ (step env Event.localTimeout s).1 = s ∧
      (step env (Event.matchEnd w r) s).1 = { s with winner := some w } ∧
      (step env (Event.matchEnd w r) s).1.matchState = s.matchState ∧
      (step env (Event.matchEnd w r) s).1.timer = s.timer := by
  refine ⟨?_, ?_, ?_, ?_, ?_⟩
  · simp [step, tick_of_finished s h]
  · simp [step, localTimeout_of_finished s h]
  · simp [step, onMatchEnd, h]
  · simp [step, onMatchEnd, h]
  · simp [step, onMatchEnd]

/-- C1 witness: the session that timed out with no seconds left, then a
matchEnd for "alice". -/
theorem finished_is_sticky_but_matchEnd_sets_winner_witness :
    (localTimeout { initialSession with timer := 0 }).matchState = MatchState.finished ∧
      ((step ⟨true, "p1"⟩ Event.tick (localTimeout { initialSession with timer := 0 })).1
          = localTimeout { initialSession with timer := 0 } ∧
        (step ⟨true, "p1"⟩ Event.localTimeout
            (localTimeout { initialSession with timer := 0 })).1
          = localTimeout { initialSession with timer := 0 } ∧
        (step ⟨true, "p1"⟩ (Event.matchEnd "alice" "solved")
            (localTimeout { initialSession with timer := 0 })).1
          = { localTimeout { initialSession with timer := 0 } with winner := some "alice" } ∧
        (step ⟨true, "p1"⟩ (Event.matchEnd "alice" "solved")
            (localTimeout { initialSession with timer := 0 })).1.matchState
          = (localTimeout { initialSession with timer := 0 }).matchState ∧
        (step ⟨true, "p1"⟩ (Event.matchEnd "alice" "solved")
            (localTimeout { initialSession with timer := 0 })).1.timer
          = (localTimeout { initialSession with timer := 0 }).timer) :=
  ⟨by decide,
    finished_is_sticky_but_matchEnd_sets_winner ⟨true, "p1"⟩
      (localTimeout { initialSession with timer := 0 }) "alice" "solved" (by decide)⟩

/-- C1 as stated fails: after 300 ticks and the local timeout the session is
finished with winner "Time Up!", and a matchEnd that arrives afterwards
replaces the winner by "alice". -/
theorem matchEnd_after_timeout_changes_winner :
    (run ⟨true, "p1"⟩ (List.replicate 300 Event.tick ++ [Event.localTimeout])
        initialSession).1.matchState = MatchState.finished ∧
      (run ⟨true, "p1"⟩ (List.replicate 300 Event.tick ++ [Event.localTimeout])
        initialSession).1.winner = some "Time Up!" ∧
      (step ⟨true, "p1"⟩ (Event.matchEnd "alice" "solved")
        (run ⟨true, "p1"⟩ (List.replicate 300 Event.tick ++ [Event.localTimeout])
          initialSession).1).1.winner = some "alice" ∧
      (step ⟨true, "p1"⟩ (Event.matchEnd "alice" "solved")
        (run ⟨true, "p1"⟩ (List.replicate 300 Event.tick ++ [Event.localTimeout])
          initialSession).1).1.winner ≠
        (run ⟨true, "p1"⟩ (List.replicate 300 Event.tick ++ [Event.localTimeout])
          initialSession).1.winner := by
  have key : ∀ s : Session, TimedOut s →
      s.matchState = MatchState.finished ∧ s.winner = some "Time Up!" ∧
        (step ⟨true, "p1"⟩ (Event.matchEnd "alice" "solved") s).1.winner = some "alice" ∧
        (step ⟨true, "p1"⟩ (Event.matchEnd "alice" "solved") s).1.winner ≠ s.winner := by
    intro s hs
    refine ⟨hs.1, hs.2.1, rfl, ?_⟩
    rw [hs.2.1]
    show some "alice" ≠ some "Time Up!"
    decide
  apply key
  have hc : (List.replicate 300 Event.tick).countP Event.isTick = 300 := by
    rw [List.countP_replicate]
    simp [Event.isTick]
  have ht : initialSession.timer = (((List.replicate 300 Event.tick).countP Event.isTick : Nat) : Int) := by
    rw [hc]
    rfl
  have h := run_then_timeout ⟨true, "p1"⟩ (List.replicate 300 Event.tick) initialSession rfl ht
    (by intro e he; rw [List.eq_of_mem_replicate he]; rfl)
  rw [run_append]
  generalize (run ⟨true, "p1"⟩ (List.replicate 300 Event.tick) initialSession).1 = s0 at h ⊢
  exact h

/-- C2: in a session in progress with t > 0 seconds left, a matchEnd with
payload winner w and any reason gives status finished, winner w and timer t;
after any further events the timer is still t, and a Tick then leaves it at
t. -/
theorem matchEnd_sets_winner_and_freezes_timer (env : Env) (s : Session) (t : Int)
    (w r : String) (es : List Event)
    (hs : s.matchState = MatchState.in_progress) (ht : s.timer = t) (hpos : 0 < t) :
    (step env (Event.matchEnd w r) s).1.matchState = MatchState.finished ∧
      (step env (Event.matchEnd w r) s).1.winner = some w ∧
      (step env (Event.matchEnd w r) s).1.timer = t ∧
      (step env Event.tick (step env (Event.matchEnd w r) s).1).1.timer = t ∧
      (run env es (step env (Event.matchEnd w r) s).1).1.timer = t ∧
      (step env Event.tick (run env es (step env (Event.matchEnd w r) s).1).1).1.timer = t := by
  have _hs := hs
  have _hpos := hpos
  have h1 : (step env (Event.matchEnd w r) s).1.matchState = MatchState.finished := by
    simp [step, onMatchEnd]
  have h3 : (step env (Event.matchEnd w r) s).1.timer = t := by
    simp [step, onMatchEnd, ht]
  have hrun := run_of_finished env es _ h1
  refine ⟨h1, by simp [step, onMatchEnd], h3, ?_, ?_, ?_⟩
  · rw [(step_of_finished env Event.tick _ h1).2, h3]
  · rw [hrun.2, h3]
  · rw [(step_of_finished env Event.tick _ hrun.1).2, hrun.2, h3]

/-- C2 witness: 120 seconds left, matchEnd with winner "alice" and reason
"solved", then two ticks and a commentary line. -/
theorem matchEnd_sets_winner_and_freezes_timer_witness :
    ({ initialSession with timer := 120 } : Session).matchState = MatchState.in_progress ∧
      (0 : Int) < 120 ∧
      (step ⟨true, "p1"⟩ (Event.matchEnd "alice" "solved")
          { initialSession with timer := 120 }).1.matchState = MatchState.finished ∧
      (step ⟨true, "p1"⟩ (Event.matchEnd "alice" "solved")
          { initialSession with timer := 120 }).1.winner = some "alice" ∧
      (step ⟨true, "p1"⟩ (Event.matchEnd "alice" "solved")
          { initialSession with timer := 120 }).1.timer = 120 ∧
      (step ⟨true, "p1"⟩ Event.tick (step ⟨true, "p1"⟩ (Event.matchEnd "alice" "solved")
          { initialSession with timer := 120 }).1).1.timer = 120 ∧
      (run ⟨true, "p1"⟩ [Event.tick, Event.newCommentary "gg", Event.tick]
          (step ⟨true, "p1"⟩ (Event.matchEnd "alice" "solved")
            { initialSession with timer := 120 }).1).1.timer = 120 ∧
      (step ⟨true, "p1"⟩ Event.tick
          (run ⟨true, "p1"⟩ [Event.tick, Event.newCommentary "gg", Event.tick]
            (step ⟨true, "p1"⟩ (Event.matchEnd "alice" "solved")
              { initialSession with timer := 120 }).1).1).1.timer = 120 :=
  ⟨rfl, by decide,
    matchEnd_sets_winner_and_freezes_timer ⟨true, "p1"⟩ { initialSession with timer := 120 }
      120 "alice" "solved" [Event.tick, Event.newCommentary "gg", Event.tick] rfl rfl
      (by decide)⟩

/-- C3: the initial session is in progress with no winner and 300 seconds;
from any session in progress with n seconds left, n Ticks followed by the
local timeout give status finished, winner "Time Up!" and timer 0, also when
other events (no matchEnd among them) arrive in between; from the initial
session this takes 300 Ticks. -/
theorem local_timeout_ends_the_match (env : Env) (s : Session) (n : Nat) (es : List Event)
    (hs : s.matchState = MatchState.in_progress) (ht : s.timer = (n : Int))
    (hes : ∀ e ∈ es, e.isMatchEnd = false) (hn : es.countP Event.isTick = n) :
    (initialSession.matchState = MatchState.in_progress ∧ initialSession.winner = none ∧
        initialSession.timer = 300) ∧
      ((localTimeout (ticks n s)).matchState = MatchState.finished ∧
        (localTimeout (ticks n s)).winner = some "Time Up!" ∧
        (localTimeout (ticks n s)).timer = 0) ∧
      ((run env (es ++ [Event.localTimeout]) s).1.matchState = MatchState.finished ∧
        (run env (es ++ [Event.localTimeout]) s).1.winner = some "Time Up!" ∧
        (run env (es ++ [Event.localTimeout]) s).1.timer = 0) ∧
      ((localTimeout (ticks 300 initialSession)).matchState = MatchState.finished ∧
        (localTimeout (ticks 300 initialSession)).winner = some "Time Up!" ∧
        (localTimeout (ticks 300 initialSession)).timer = 0) := by
  refine ⟨⟨rfl, rfl, rfl⟩, ?_, ?_, ?_⟩
  · rw [ticks_of_in_progress n s hs ht]
    exact localTimeout_at_zero _ hs rfl
  · have h := run_then_timeout env es s hs (by rw [hn, ht]) hes
    rw [run_append]
    generalize (run env es s).1 = s0 at h ⊢
    exact h
  · rw [ticks_of_in_progress 300 initialSession rfl rfl]
    exact localTimeout_at_zero _ rfl rfl

/-- C3 witness: two seconds left, two Ticks with a commentary line and an
early run of the timer effect in between. -/
theorem local_timeout_ends_the_match_witness :
    ({ initialSession with timer := 2 } : Session).matchState = MatchState.in_progress ∧
      ({ initialSession with timer := 2 } : Session).timer = ((2 : Nat) : Int) ∧
      (∀ e ∈ [Event.tick, Event.newCommentary "go", Event.localTimeout, Event.tick],
        e.isMatchEnd = false) ∧
      [Event.tick, Event.newCommentary "go", Event.localTimeout, Event.tick].countP
        Event.isTick = 2 ∧
      ((initialSession.matchState = MatchState.in_progress ∧ initialSession.winner = none ∧
        initialSession.timer = 300) ∧
      ((localTimeout (ticks 2 { initialSession with timer := 2 })).matchState
          = MatchState.finished ∧
        (localTimeout (ticks 2 { initialSession with timer := 2 })).winner = some "Time Up!" ∧
        (localTimeout (ticks 2 { initialSession with timer := 2 })).timer = 0) ∧
      ((run ⟨true, "p1"⟩
          ([Event.tick, Event.newCommentary "go", Event.localTimeout, Event.tick] ++
            [Event.localTimeout]) { initialSession with timer := 2 }).1.matchState
          = MatchState.finished ∧
        (run ⟨true, "p1"⟩
          ([Event.tick, Event.newCommentary "go", Event.localTimeout, Event.tick] ++
            [Event.localTimeout]) { initialSession with timer := 2 }).1.winner
          = some "Time Up!" ∧
        (run ⟨true, "p1"⟩
          ([Event.tick, Event.newCommentary "go", Event.localTimeout, Event.tick] ++
            [Event.localTimeout]) { initialSession with timer := 2 }).1.timer = 0) ∧
      ((localTimeout (ticks 300 initialSession)).matchState = MatchState.finished ∧
        (localTimeout (ticks 300 initialSession)).winner = some "Time Up!" ∧
        (localTimeout (ticks 300 initialSession)).timer = 0)) :=
  ⟨rfl, rfl, by simp [Event.isMatchEnd], by simp [Event.isTick],
    local_timeout_ends_the_match ⟨true, "p1"⟩ { initialSession with timer := 2 } 2
      [Event.tick, Event.newCommentary "go", Event.localTimeout, Event.tick] rfl rfl
      (by simp [Event.isMatchEnd]) (by simp [Event.isTick])⟩

/-- C4: after any sequence of events from the initial session the timer is
not negative; no event, in any state, raises the timer; and the timer after
an event is the timer before it, less 1 exactly when the event is a Tick
taken while the match is in progress with time left. -/
theorem timer_never_negative_never_rises (env : Env) (es : List Event) (e : Event)
    (s : Session) :
    0 ≤ (run env es initialSession).1.timer ∧
      (step env e (run env es initialSession).1).1.timer ≤ (run env es initialSession).1.timer ∧
      (step env e s).1.timer ≤ s.timer ∧
      (step env e s).1.timer =
        (if e.isTick = true ∧ s.matchState = MatchState.in_progress ∧ 0 < s.timer
          then s.timer - 1 else s.timer) := by
  refine ⟨run_timer_nonneg env es initialSession (by decide), ?_, ?_, step_timer_eq env e s⟩
  · rw [step_timer_eq]
    split <;> omega
  · rw [step_timer_eq]
    split <;> omega

/-- C5, as the code has it: the guard is the disabled state of the submit
button, computed from the session (isSubmitting or finished). In a session
that is submitting or finished a press of the button posts nothing and
changes nothing; and along any sequence of events from the initial session
at most one post is outstanding, namely exactly while isSubmitting is set. -/
theorem submit_button_is_the_guard (env : Env) (s : Session) (tok : Option String)
    (es : List Event)
    (h : s.isSubmitting = true ∨ s.matchState = MatchState.finished) :
    submitDisabled s = true ∧
      step env (Event.clickSubmit tok) s = (s, []) ∧
      (run env es initialSession).1.pending ≤ 1 ∧
      (run env es initialSession).1.pending =
        (if (run env es initialSession).1.isSubmitting = true then 1 else 0) := by
  have hd : submitDisabled s = true := by
    rcases h with h | h <;> simp [submitDisabled, h]
  have hp := run_pending env es initialSession rfl
  refine ⟨hd, by simp [step, hd], ?_, hp⟩
  rw [hp]
  split <;> omega

/-- C5 witness: the session right after a first press of the button. -/
theorem submit_button_is_the_guard_witness :
    ((step ⟨true, "p1"⟩ (Event.clickSubmit (some "jwt")) initialSession).1.isSubmitting = true ∨
        (step ⟨true, "p1"⟩ (Event.clickSubmit (some "jwt")) initialSession).1.matchState
          = MatchState.finished) ∧
      (submitDisabled (step ⟨true, "p1"⟩ (Event.clickSubmit (some "jwt")) initialSession).1
          = true ∧
        step ⟨true, "p1"⟩ (Event.clickSubmit (some "jwt"))
            (step ⟨true, "p1"⟩ (Event.clickSubmit (some "jwt")) initialSession).1
          = ((step ⟨true, "p1"⟩ (Event.clickSubmit (some "jwt")) initialSession).1, []) ∧
        (run ⟨true, "p1"⟩
            [Event.clickSubmit (some "jwt"), Event.clickSubmit (some "jwt")]
            initialSession).1.pending ≤ 1 ∧
        (run ⟨true, "p1"⟩
            [Event.clickSubmit (some "jwt"), Event.clickSubmit (some "jwt")]
            initialSession).1.pending =
          (if (run ⟨true, "p1"⟩
              [Event.clickSubmit (some "jwt"), Event.clickSubmit (some "jwt")]
              initialSession).1.isSubmitting = true then 1 else 0)) :=
  ⟨Or.inl rfl,
    submit_button_is_the_guard ⟨true, "p1"⟩
      (step ⟨true, "p1"⟩ (Event.clickSubmit (some "jwt")) initialSession).1 (some "jwt")
      [Event.clickSubmit (some "jwt"), Event.clickSubmit (some "jwt")] (Or.inl rfl)⟩

/-- C5 as stated fails: `handleSubmit` itself reads neither isSubmitting nor
the match state. Invoked with a token while a first submission is in flight
it posts again, so that two posts are outstanding; invoked in a finished
session it posts as well and sets isSubmitting. -/
theorem handleSubmit_has_no_state_guard :
    (handleSubmit ⟨true, "p1"⟩ (some "jwt") initialSession).1.isSubmitting = true ∧
      (handleSubmit ⟨true, "p1"⟩ (some "jwt")
          (handleSubmit ⟨true, "p1"⟩ (some "jwt") initialSession).1).2 =
        [Effect.post ⟨javaTemplate, "java", "p1", "p1"⟩ "jwt"] ∧
      (handleSubmit ⟨true, "p1"⟩ (some "jwt")
          (handleSubmit ⟨true, "p1"⟩ (some "jwt") initialSession).1).1.pending = 2 ∧
      (onMatchEnd "alice" "solved" initialSession).matchState = MatchState.finished ∧
      (handleSubmit ⟨true, "p1"⟩ (some "jwt") (onMatchEnd "alice" "solved" initialSession)).2 =
        [Effect.post ⟨javaTemplate, "java", "p1", "p1"⟩ "jwt"] ∧
      (handleSubmit ⟨true, "p1"⟩ (some "jwt")
          (onMatchEnd "alice" "solved" initialSession)).1.isSubmitting = true := by
  refine ⟨rfl, rfl, rfl, rfl, rfl, rfl⟩

/-- C6: from a session with an empty log, after any sequence of events the
log is the first 5 of the rendered commentary entries in reverse arrival
order; its length is the smaller of their number and 5, so at most 5; and
when the entries are e1 to e6 the log is [e6, e5, e4, e3, e2]. -/
theorem commentary_is_last_five_newest_first (env : Env) (s : Session) (es : List Event)
    (e1 e2 e3 e4 e5 e6 : String) (h : s.commentary = []) :
    (run env es s).1.commentary = ((renderedEntries es).reverse).take 5 ∧
      (run env es s).1.commentary.length = min (renderedEntries es).length 5 ∧
      (run env es s).1.commentary.length ≤ 5 ∧
      (renderedEntries es = [e1, e2, e3, e4, e5, e6] →
        (run env es s).1.commentary = [e6, e5, e4, e3, e2]) := by
  have hc := run_commentary env es s h
  refine ⟨hc, ?_, ?_, ?_⟩
  · rw [hc, List.length_take, List.length_reverse, Nat.min_comm]
  · rw [hc, List.length_take]
    exact Nat.min_le_left _ _
  · intro h6
    rw [hc, h6]
    rfl

/-- C6 witness: six commentary events of both kinds, with a tick among
them, on the initial session. -/
theorem commentary_is_last_five_newest_first_witness :
    initialSession.commentary = [] ∧
      renderedEntries
          [Event.newCommentary "a", Event.testCaseResult "bob" "passed" 2, Event.tick,
            Event.newCommentary "c", Event.newCommentary "d", Event.newCommentary "e",
            Event.testCaseResult "amy" "failed" 6] =
        ["🤖 a", "⚡ bob passed Test Case #2!", "🤖 c", "🤖 d", "🤖 e",
          "⚡ amy failed Test Case #6!"] ∧
      (run ⟨true, "p1"⟩
          [Event.newCommentary "a", Event.testCaseResult "bob" "passed" 2, Event.tick,
            Event.newCommentary "c", Event.newCommentary "d", Event.newCommentary "e",
            Event.testCaseResult "amy" "failed" 6] initialSession).1.commentary =
        ["⚡ amy failed Test Case #6!", "🤖 e", "🤖 d", "🤖 c", "⚡ bob passed Test Case #2!"] :=
  ⟨rfl, by decide,
    (commentary_is_last_five_newest_first ⟨true, "p1"⟩ initialSession
      [Event.newCommentary "a", Event.testCaseResult "bob" "passed" 2, Event.tick,
        Event.newCommentary "c", Event.newCommentary "d", Event.newCommentary "e",
        Event.testCaseResult "amy" "failed" 6]
      "🤖 a" "⚡ bob passed Test Case #2!" "🤖 c" "🤖 d" "🤖 e" "⚡ amy failed Test Case #6!"
      rfl).2.2.2 (by decide)⟩

/-- C7: `handleSubmit` with a token present, whatever the session holds,
sets isSubmitting, clears the stored result and posts the submission once.
When the post settles, after any events other than a settlement,
isSubmitting is false; a response with verdicts vs leaves results = vs, in
the same order; a rejection leaves the results unset, logs and alerts the
failure notice and posts nothing, and no event other than a new press of
the button posts afterwards. -/
theorem submit_completion (env : Env) (s : Session) (tok : Option String)
    (es fs : List Event) (vs : List Verdict) (err : String)
    (htok : tokenMissing tok = false) (hes : ∀ e ∈ es, e.isPostSettled = false)
    (hfs : ∀ e ∈ fs, e.isClickSubmit = false) :
    ((handleSubmit env tok s).1.isSubmitting = true ∧
        (handleSubmit env tok s).1.submissionResult = none ∧
        (handleSubmit env tok s).2 =
          [Effect.post ⟨s.myCode, "java", env.problemId, env.problemId⟩ (tok.getD "")]) ∧
      ((step env (Event.postSettled (Except.ok vs))
            (run env es (handleSubmit env tok s).1).1).1.isSubmitting = false ∧
        (step env (Event.postSettled (Except.ok vs))
            (run env es (handleSubmit env tok s).1).1).1.submissionResult = some vs ∧
        (step env (Event.postSettled (Except.ok vs))
            (run env es (handleSubmit env tok s).1).1).2 = []) ∧
      ((step env (Event.postSettled (Except.error err))
            (run env es (handleSubmit env tok s).1).1).1.isSubmitting = false ∧
        (step env (Event.postSettled (Except.error err))
            (run env es (handleSubmit env tok s).1).1).1.submissionResult = none ∧
        (step env (Event.postSettled (Except.error err))
            (run env es (handleSubmit env tok s).1).1).2 =
          [Effect.consoleError "Submission failed",
            Effect.alert "An error occurred during submission."] ∧
        (∀ x ∈ (run env fs (step env (Event.postSettled (Except.error err))
            (run env es (handleSubmit env tok s).1).1).1).2, x.isPost = false)) := by
  have h0 : (handleSubmit env tok s).1.isSubmitting = true ∧
      (handleSubmit env tok s).1.submissionResult = none ∧
      0 < (handleSubmit env tok s).1.pending := by
    simp [handleSubmit, htok]
  have h1 := run_in_flight env es _ h0 hes
  have hp : (run env es (handleSubmit env tok s).1).1.pending ≠ 0 := by omega
  refine ⟨⟨h0.1, h0.2.1, by simp [handleSubmit, htok]⟩, ⟨?_, ?_, ?_⟩, ⟨?_, ?_, ?_, ?_⟩⟩
  · simp [step, onPostSettled, hp]
  · simp [step, onPostSettled, hp]
  · simp [step, onPostSettled, hp]
  · simp [step, onPostSettled, hp]
  · simp [step, onPostSettled, hp, h1.2.1]
  · simp [step, onPostSettled, hp, failureNotice]
  · exact run_no_post env fs _ hfs

/-- C7 witness: results of an earlier run are stored, the token is "jwt", a
tick and a disabled press of the button pass before the post settles. -/
theorem submit_completion_witness :
    tokenMissing (some "jwt") = false ∧
      (∀ e ∈ [Event.tick, Event.clickSubmit (some "jwt")], e.isPostSettled = false) ∧
      (∀ e ∈ [Event.tick, Event.newCommentary "gg"], e.isClickSubmit = false) ∧
      (step ⟨true, "p1"⟩ (Event.postSettled (Except.ok [⟨"Accepted", some "4", none⟩]))
          (run ⟨true, "p1"⟩ [Event.tick, Event.clickSubmit (some "jwt")]
            (handleSubmit ⟨true, "p1"⟩ (some "jwt")
              { initialSession with
                submissionResult := some [⟨"Wrong Answer", none, none⟩] }).1).1).1.submissionResult
        = some [⟨"Accepted", some "4", none⟩] ∧
      (step ⟨true, "p1"⟩ (Event.postSettled (Except.error "Network Error"))
          (run ⟨true, "p1"⟩ [Event.tick, Event.clickSubmit (some "jwt")]
            (handleSubmit ⟨true, "p1"⟩ (some "jwt")
              { initialSession with
                submissionResult := some [⟨"Wrong Answer", none, none⟩] }).1).1).1.submissionResult
        = none :=
  ⟨rfl, by simp [Event.isPostSettled], by simp [Event.isClickSubmit],
    (submit_completion ⟨true, "p1"⟩
      { initialSession with submissionResult := some [⟨"Wrong Answer", none, none⟩] }
      (some "jwt") [Event.tick, Event.clickSubmit (some "jwt")]
      [Event.tick, Event.newCommentary "gg"] [⟨"Accepted", some "4", none⟩] "Network Error"
      rfl (by simp [Event.isPostSettled]) (by simp [Event.isClickSubmit])).2.1.2.1,
    (submit_completion ⟨true, "p1"⟩
      { initialSession with submissionResult := some [⟨"Wrong Answer", none, none⟩] }
      (some "jwt") [Event.tick, Event.clickSubmit (some "jwt")]
      [Event.tick, Event.newCommentary "gg"] [⟨"Accepted", some "4", none⟩] "Network Error"
      rfl (by simp [Event.isPostSettled]) (by simp [Event.isClickSubmit])).2.2.2.1⟩

/-- C8: with no token stored, `handleSubmit` alerts "You must be logged in
to submit a solution.", posts nothing and returns the session as it was, in
every cell; through the button the session is unchanged as well and nothing
is posted. -/
theorem submit_without_token (env : Env) (s : Session) :
    handleSubmit env none s =
        (s, [Effect.alert "You must be logged in to submit a solution."]) ∧
      (∀ x ∈ (handleSubmit env none s).2, x.isPost = false) ∧
      (step env (Event.clickSubmit none) s).1 = s ∧
      (∀ x ∈ (step env (Event.clickSubmit none) s).2, x.isPost = false) := by
  have h : handleSubmit env none s =
      (s, [Effect.alert "You must be logged in to submit a solution."]) := rfl
  refine ⟨h, ?_, ?_, ?_⟩
  · rw [h]
    simp [Effect.isPost]
  · simp only [step]
    split
    · rfl
    · rw [h]
  · simp only [step]
    split
    · simp
    · rw [h]
      simp [Effect.isPost]

/-- C9: in a finished session the own editor is read-only, and a local edit
with any content leaves the session, the own buffer included, unchanged and
emits nothing. -/
theorem edit_disabled_when_finished (env : Env) (s : Session) (c : String)
    (h : s.matchState = MatchState.finished) :
    editorReadOnly s = true ∧
      step env (Event.localEdit c) s = (s, []) ∧
      (step env (Event.localEdit c) s).1.myCode = s.myCode ∧
      (∀ x ∈ (step env (Event.localEdit c) s).2, x.isEmitCodeChange = false) := by
  have hr : editorReadOnly s = true := by simp [editorReadOnly, h]
  have hs : step env (Event.localEdit c) s = (s, []) := by simp [step, hr]
  refine ⟨hr, hs, by rw [hs], by rw [hs]; simp⟩

/-- C9 witness: the initial session ended by a matchEnd, then an edit. -/
theorem edit_disabled_when_finished_witness :
    (onMatchEnd "alice" "solved" initialSession).matchState = MatchState.finished ∧
      (editorReadOnly (onMatchEnd "alice" "solved" initialSession) = true ∧
        step ⟨true, "p1"⟩ (Event.localEdit "class X\x7b\x7d")
            (onMatchEnd "alice" "solved" initialSession)
          = (onMatchEnd "alice" "solved" initialSession, []) ∧
        (step ⟨true, "p1"⟩ (Event.localEdit "class X\x7b\x7d")
            (onMatchEnd "alice" "solved" initialSession)).1.myCode
          = (onMatchEnd "alice" "solved" initialSession).myCode ∧
        (∀ x ∈ (step ⟨true, "p1"⟩ (Event.localEdit "class X\x7b\x7d")
            (onMatchEnd "alice" "solved" initialSession)).2, x.isEmitCodeChange = false)) :=
  ⟨rfl,
    edit_disabled_when_finished ⟨true, "p1"⟩ (onMatchEnd "alice" "solved" initialSession)
      "class X\x7b\x7d" rfl⟩

/-- C10, as the code has it: an inbound opponentCodeChange(c) makes the peer
buffer exactly c and leaves the own buffer; a local edit with content c in a
session in progress makes the own buffer exactly c, leaves the peer buffer,
and emits codeChange with the room id and the full content c when there is a
socket, nothing when there is none; no event other than a local edit changes
the own buffer and none other than opponentCodeChange changes the peer
buffer. -/
theorem buffers_have_one_writer_each (env : Env) (s t : Session) (c : String) (e : Event)
    (ht : t.matchState = MatchState.in_progress) :
    ((step env (Event.opponentCodeChange c) s).1.opponentCode = c ∧
        (step env (Event.opponentCodeChange c) s).1.myCode = s.myCode) ∧
      ((step env (Event.localEdit c) t).1.myCode = c ∧
        (step env (Event.localEdit c) t).1.opponentCode = t.opponentCode ∧
        (step env (Event.localEdit c) t).2 =
          (if env.socket = true then [Effect.emitCodeChange env.problemId c] else [])) ∧
      (e.isLocalEdit = false → (step env e s).1.myCode = s.myCode) ∧
      (e.isOpponentCodeChange = false → (step env e s).1.opponentCode = s.opponentCode) := by
  have hr : editorReadOnly t = false := by simp [editorReadOnly, ht]
  refine ⟨⟨rfl, rfl⟩, ⟨?_, ?_, ?_⟩, ?_, ?_⟩
  · simp [step, hr, handleCodeChange]
  · simp [step, hr, handleCodeChange]
  · simp [step, hr, handleCodeChange]
  · intro he
    cases e with
    | localEdit c => simp [Event.isLocalEdit] at he
    | tick =>
      simp only [step, tick]
      split <;> rfl
    | localTimeout =>
      simp only [step, localTimeout]
      split
      · rfl
      · split <;> rfl
    | clickSubmit tok =>
      simp only [step, handleSubmit]
      split
      · rfl
      · split <;> rfl
    | postSettled r =>
      simp only [step, onPostSettled]
      split
      · rfl
      · cases r <;> rfl
    | _ => rfl
  · intro he
    cases e with
    | opponentCodeChange c => simp [Event.isOpponentCodeChange] at he
    | tick =>
      simp only [step, tick]
      split <;> rfl
    | localTimeout =>
      simp only [step, localTimeout]
      split
      · rfl
      · split <;> rfl
    | localEdit c =>
      simp only [step, handleCodeChange]
      split <;> rfl
    | clickSubmit tok =>
      simp only [step, handleSubmit]
      split
      · rfl
      · split <;> rfl
    | postSettled r =>
      simp only [step, onPostSettled]
      split
      · rfl
      · cases r <;> rfl
    | _ => rfl

/-- C10 witness: the scenario opponentCodeChange("class X{}") on the initial
session, a local edit with a socket, and a tick as the other event. -/
theorem buffers_have_one_writer_each_witness :
    initialSession.matchState = MatchState.in_progress ∧
      (step ⟨true, "p1"⟩ (Event.opponentCodeChange "class X\x7b\x7d")
          initialSession).1.opponentCode = "class X\x7b\x7d" ∧
      (step ⟨true, "p1"⟩ (Event.opponentCodeChange "class X\x7b\x7d")
          initialSession).1.myCode = javaTemplate ∧
      (step ⟨true, "p1"⟩ (Event.localEdit "class X\x7b\x7d") initialSession).2 =
        [Effect.emitCodeChange "p1" "class X\x7b\x7d"] ∧
      (step ⟨true, "p1"⟩ Event.tick initialSession).1.myCode = javaTemplate ∧
      (step ⟨true, "p1"⟩ Event.tick initialSession).1.opponentCode
        = "// Waiting for opponent..." :=
  ⟨rfl,
    (buffers_have_one_writer_each ⟨true, "p1"⟩ initialSession initialSession
      "class X\x7b\x7d" Event.tick rfl).1.1,
    (buffers_have_one_writer_each ⟨true, "p1"⟩ initialSession initialSession
      "class X\x7b\x7d" Event.tick rfl).1.2,
    (buffers_have_one_writer_each ⟨true, "p1"⟩ initialSession initialSession
      "class X\x7b\x7d" Event.tick rfl).2.1.2.2,
    (buffers_have_one_writer_each ⟨true, "p1"⟩ initialSession initialSession
      "class X\x7b\x7d" Event.tick rfl).2.2.1 rfl,
    (buffers_have_one_writer_each ⟨true, "p1"⟩ initialSession initialSession
      "class X\x7b\x7d" Event.tick rfl).2.2.2 rfl⟩

/-- C10 as stated fails: without a socket a local edit in a session in
progress sets the own buffer and emits no codeChange. -/
theorem local_edit_without_socket_emits_nothing :
    initialSession.matchState = MatchState.in_progress ∧
      (step ⟨false, "p1"⟩ (Event.localEdit "class X\x7b\x7d") initialSession).1.myCode
        = "class X\x7b\x7d" ∧
      (step ⟨false, "p1"⟩ (Event.localEdit "class X\x7b\x7d") initialSession).2 = [] ∧
      Effect.emitCodeChange "p1" "class X\x7b\x7d" ∉
        (step ⟨false, "p1"⟩ (Event.localEdit "class X\x7b\x7d") initialSession).2 := by
  refine ⟨rfl, rfl, rfl, ?_⟩
  show Effect.emitCodeChange "p1" "class X\x7b\x7d" ∉ ([] : List Effect)
  simp

end CodeMate
